import Mathlib

/-!
Formal model of the `PlebbitTippingV1` contract
(`src/contracts/PlebbitTippingV1.sol`).

Modelling conventions:
* `uint256` values, addresses and `bytes32` identifiers are modelled as `Nat`
  (addresses and comment cids are opaque indices; no arithmetic is done on them).
* The `keccak256` key derivations are modelled as the injective pairing of the
  hashed arguments: `tips` and `tipsTotalAmounts` are keyed by the pair
  `(recipientCommentCid, feeRecipient)` and `senderTipsTotalAmounts` by the
  4-tuple `(senderCommentCid, sender, recipientCommentCid, feeRecipient)` —
  the standard no-collision abstraction of a cryptographic hash.
* Solidity 0.8 checked arithmetic is modelled explicitly on the write path
  and on the read paths alike: `amount * feePercent` reverts when it exceeds
  `2^256 - 1`, `amount - fee` reverts on underflow, the running-total
  increments of `tip` revert on overflow, the accumulating `+=` loops of the
  totals queries run through `checkedSum`, and `getTips`/`getTipsAmounts`
  check both the `totalTips` accumulation and the `offset + limit` addition
  (`ContractError.arithmeticOverflow` stands for the Solidity `Panic(0x11)`).
  The explicit `uint96(amount)` cast truncates (`% 2^96`) exactly as in the
  source.  The loop counters (`i`, `j`, `currentIndex`, `resultIndex`) are
  bounded by array lengths respectively by `totalTips`, so their increments
  cannot overflow once the accumulations above have been checked.
* The two ETH `transfer` calls have no balance model; whether each one
  succeeds is decided by the receiving account, not by ledger state, so each
  `tip` call carries two environment-oracle bits (`feeTransferOk`,
  `recipientTransferOk`); a `false` bit is the corresponding `transfer`
  reverting (`ContractError.transferFailed`).  Successful transfers are
  recorded in the `transfers` log in execution order, so theorems can speak
  about the amounts paid to `feeRecipient` and `recipient`.
-/

/-- One stored tip (struct `Tip` in the source).  `amount` is the `uint96`
field: the write path stores it truncated modulo `2^96`. -/
structure Tip where
  amount : Nat
  feeRecipient : Nat
  sender : Nat
  senderCommentCid : Nat
  deriving DecidableEq

/-- The revert reasons of the contract.  The first two are the `require`
messages of `tip`, `arithmeticOverflow` is the Solidity 0.8 checked-arithmetic
panic, `transferFailed` is a reverting `payable(...).transfer(...)`, and the
rest are the remaining `require` failures. -/
inductive ContractError where
  | amountTooLow
  | amountMismatch
  | arithmeticOverflow
  | transferFailed
  | arrayLengthMismatch
  | feePercentOutOfRange
  | unauthorized
  deriving DecidableEq

/-- Contract storage plus the transfer log.  The three mappings are total
functions defaulting to `[]` / `0`, exactly like Solidity mappings. -/
structure State where
  tips : Nat × Nat → List Tip
  tipsTotalAmounts : Nat × Nat → Nat
  senderTipsTotalAmounts : Nat × Nat × Nat × Nat → Nat
  minimumTipAmount : Nat
  feePercent : Nat
  admins : Nat → Bool
  moderators : Nat → Bool
  transfers : List (Nat × Nat)

/-- The constructor: stores `_minimumTipAmount` and `_feePercent` with no
validation and grants `DEFAULT_ADMIN_ROLE` to the deployer. -/
def initState (deployer minimumTipAmount feePercent : Nat) : State :=
  { tips := fun _ => []
    tipsTotalAmounts := fun _ => 0
    senderTipsTotalAmounts := fun _ => 0
    minimumTipAmount := minimumTipAmount
    feePercent := feePercent
    admins := fun a => a == deployer
    moderators := fun _ => false
    transfers := [] }

/-- The arguments of one `tip` call, together with the caller identity
(`msg.sender`), the attached value (`msg.value`), and the environment's
verdict on the two `transfer` calls: `feeTransferOk` / `recipientTransferOk`
say whether the ETH transfer to `feeRecipient` / `recipient` succeeds (its
outcome depends on the receiving account, not on ledger state). -/
structure TipCall where
  sender : Nat
  msgValue : Nat
  recipient : Nat
  amount : Nat
  feeRecipient : Nat
  senderCommentCid : Nat
  recipientCommentCid : Nat
  feeTransferOk : Bool
  recipientTransferOk : Bool
  deriving DecidableEq

/-- The constant `2^256`, the modulus of `uint256`; checked arithmetic reverts at it. -/
def U256 : Nat := 2 ^ 256

/-- The constant `2^96`, the modulus of `uint96`; the explicit cast truncates at it. -/
def U96 : Nat := 2 ^ 96

/-- The `tip` function.  Checks the two `require`s in source order, computes
`fee = amount * feePercent / 100` and `receivedAmount = amount - fee` with
checked `uint256` arithmetic, transfers the fee and then the net payment
(each `transfer` reverting the whole call when the environment makes it
fail), appends the `Tip` record (with the `uint96`-truncated amount) and
increments the two running totals by the full `amount` (checked additions). -/
def tipStep (s : State) (c : TipCall) : Except ContractError State :=
  if c.msgValue < s.minimumTipAmount then .error .amountTooLow
  else if c.msgValue ≠ c.amount then .error .amountMismatch
  else if U256 ≤ c.amount * s.feePercent then .error .arithmeticOverflow
  else if c.amount < c.amount * s.feePercent / 100 then .error .arithmeticOverflow
  else if c.feeTransferOk = true then
    if c.recipientTransferOk = true then
      if U256 ≤ s.tipsTotalAmounts (c.recipientCommentCid, c.feeRecipient) + c.amount then
        .error .arithmeticOverflow
      else if U256 ≤ s.senderTipsTotalAmounts
          (c.senderCommentCid, c.sender, c.recipientCommentCid, c.feeRecipient) +
            c.amount then
        .error .arithmeticOverflow
      else .ok { s with
        transfers := s.transfers ++
          [(c.feeRecipient, c.amount * s.feePercent / 100),
           (c.recipient, c.amount - c.amount * s.feePercent / 100)]
        tips := fun k =>
          if k = (c.recipientCommentCid, c.feeRecipient) then
            s.tips k ++ [⟨c.amount % U96, c.feeRecipient, c.sender, c.senderCommentCid⟩]
          else s.tips k
        tipsTotalAmounts := fun k =>
          if k = (c.recipientCommentCid, c.feeRecipient) then
            s.tipsTotalAmounts k + c.amount
          else s.tipsTotalAmounts k
        senderTipsTotalAmounts := fun k =>
          if k = (c.senderCommentCid, c.sender, c.recipientCommentCid, c.feeRecipient) then
            s.senderTipsTotalAmounts k + c.amount
          else s.senderTipsTotalAmounts k }
    else .error .transferFailed
  else .error .transferFailed

/-- The post-state of a `tip` call: a revert leaves the state unchanged. -/
def tipRun (s : State) (c : TipCall) : State :=
  match tipStep s c with
  | .ok next => next
  | .error _ => s

/-- Run a sequence of `tip` calls; `none` when some call reverts. -/
def execTips (s : State) : List TipCall → Option State
  | [] => some s
  | c :: cs =>
    match tipStep s c with
    | .ok next => execTips next cs
    | .error _ => none

/-- Sum of the stored (`uint96`) `amount` fields of a tip list. -/
def sumTipAmounts (l : List Tip) : Nat :=
  (l.map Tip.amount).sum

set_option maxHeartbeats 1000000 in
/-- Inversion for a successful `tip` call: all checks passed and the
post-state is the source's update and nothing else. -/
theorem tipStep_ok_inv (s : State) (c : TipCall) (next : State)
    (h : tipStep s c = .ok next) :
    s.minimumTipAmount ≤ c.msgValue ∧ c.msgValue = c.amount ∧
    c.amount * s.feePercent < U256 ∧
    c.amount * s.feePercent / 100 ≤ c.amount ∧
    c.feeTransferOk = true ∧ c.recipientTransferOk = true ∧
    next = { s with
      transfers := s.transfers ++
        [(c.feeRecipient, c.amount * s.feePercent / 100),
         (c.recipient, c.amount - c.amount * s.feePercent / 100)]
      tips := fun k =>
        if k = (c.recipientCommentCid, c.feeRecipient) then
          s.tips k ++ [⟨c.amount % U96, c.feeRecipient, c.sender, c.senderCommentCid⟩]
        else s.tips k
      tipsTotalAmounts := fun k =>
        if k = (c.recipientCommentCid, c.feeRecipient) then
          s.tipsTotalAmounts k + c.amount
        else s.tipsTotalAmounts k
      senderTipsTotalAmounts := fun k =>
        if k = (c.senderCommentCid, c.sender, c.recipientCommentCid, c.feeRecipient) then
          s.senderTipsTotalAmounts k + c.amount
        else s.senderTipsTotalAmounts k } := by
  unfold tipStep at h
  split_ifs at h with h1 h2 h3 h4 h5 h6 h7 h8
  refine ⟨Nat.le_of_not_lt h1, Decidable.not_not.mp h2, Nat.lt_of_not_le h3,
    Nat.le_of_not_lt h4, h5, h6, ?_⟩
  cases h
  rfl

/-- A Solidity 0.8 checked accumulation loop `acc += x` over a list: each
addition panics (`arithmeticOverflow`) when its result would reach `2^256`. -/
def checkedSum : List Nat → Nat → Except ContractError Nat
  | [], acc => .ok acc
  | x :: xs, acc =>
    if U256 ≤ acc + x then .error .arithmeticOverflow
    else checkedSum xs (acc + x)

/-- Function `getTipsTotalAmount`: the accumulating loop
`total += tipsTotalAmounts[keccak256(recipientCommentCid, f)]` over
`feeRecipients`, with the checked `uint256` addition of the source. -/
def getTipsTotalAmount (s : State) (recipientCommentCid : Nat)
    (feeRecipients : List Nat) : Except ContractError Nat :=
  checkedSum (feeRecipients.map fun f => s.tipsTotalAmounts (recipientCommentCid, f)) 0

/-- The nested loops of `getTipsTotalAmounts`: for each outer index, the
same checked accumulation `totals[i] += tipsTotalAmounts[tipKey]` from `0`;
the first overflowing addition aborts the whole call. -/
def getTipsTotalAmountsLoop (s : State) :
    List Nat → List (List Nat) → Except ContractError (List Nat)
  | cid :: cids, frs :: frss =>
    match checkedSum (frs.map fun f => s.tipsTotalAmounts (cid, f)) 0 with
    | .error e => .error e
    | .ok total =>
      match getTipsTotalAmountsLoop s cids frss with
      | .error e => .error e
      | .ok totals => .ok (total :: totals)
  | _, _ => .ok []

/-- Function `getTipsTotalAmounts`: requires equal outer lengths
(`"Arrays length mismatch"`), then runs the checked accumulating inner loop
for each outer index. -/
def getTipsTotalAmounts (s : State) (recipientCommentCids : List Nat)
    (feeRecipients : List (List Nat)) : Except ContractError (List Nat) :=
  if recipientCommentCids.length ≠ feeRecipients.length then .error .arrayLengthMismatch
  else getTipsTotalAmountsLoop s recipientCommentCids feeRecipients

/-- The inner pagination loop shared by `getTips` and `getTipsAmounts`:
walk one tip array while fewer than `maxResults` results are collected,
copying the elements whose running `currentIndex` has reached `offset`.
The state is the pair `(currentIndex, result so far)`. -/
def pushWindow {α : Type} (offset maxResults : Nat) :
    List α → Nat × List α → Nat × List α
  | [], st => st
  | t :: ts, (currentIndex, result) =>
    if result.length < maxResults then
      if offset ≤ currentIndex then
        pushWindow offset maxResults ts (currentIndex + 1, result ++ [t])
      else pushWindow offset maxResults ts (currentIndex + 1, result)
    else (currentIndex, result)

/-- The outer pagination loop shared by `getTips` and `getTipsAmounts`:
iterate over the per-fee-recipient tip arrays while fewer than `maxResults`
results are collected. -/
def collectWindow {α : Type} (offset maxResults : Nat) :
    List (List α) → Nat × List α → Nat × List α
  | [], st => st
  | l :: ls, (currentIndex, result) =>
    if result.length < maxResults then
      collectWindow offset maxResults ls
        (pushWindow offset maxResults l (currentIndex, result))
    else (currentIndex, result)

/-- The common body of `getTips` and `getTipsAmounts` on the already-fetched
per-fee-recipient lists (the two source functions are textually identical up
to the element copied): accumulate `totalTips` with checked additions,
return `[]` when `offset >= totalTips` (before any further arithmetic),
evaluate the checked addition `offset + limit` to clamp `maxResults`, then
run the nested copy loops.  The loop counters stay at or below `totalTips`
and `maxResults`, so their `++` increments cannot overflow. -/
def paginate {α : Type} (lists : List (List α)) (offset limit : Nat) :
    Except ContractError (List α) :=
  match checkedSum (lists.map List.length) 0 with
  | .error e => .error e
  | .ok totalTips =>
    if totalTips ≤ offset then .ok []
    else if U256 ≤ offset + limit then .error .arithmeticOverflow
    else .ok ((collectWindow offset
      (if totalTips < offset + limit then totalTips - offset else limit)
      lists (0, [])).2)

/-- Function `getTips`: paginate over the tip arrays of each fee recipient, in the
order the fee recipients are given. -/
def getTips (s : State) (recipientCommentCid : Nat) (feeRecipients : List Nat)
    (offset limit : Nat) : Except ContractError (List Tip) :=
  paginate (feeRecipients.map fun f => s.tips (recipientCommentCid, f)) offset limit

/-- Function `getTipsAmounts`: same loops as `getTips` but copying only
`tipArray[j].amount`. -/
def getTipsAmounts (s : State) (recipientCommentCid : Nat)
    (feeRecipients : List Nat) (offset limit : Nat) : Except ContractError (List Nat) :=
  paginate (feeRecipients.map fun f => (s.tips (recipientCommentCid, f)).map Tip.amount)
    offset limit

/-- The `totalTips` count both pagination functions compute first: the summed
length of the tip arrays of the requested fee recipients. -/
def totalTipsCount (s : State) (recipientCommentCid : Nat)
    (feeRecipients : List Nat) : Nat :=
  ((feeRecipients.map fun f => s.tips (recipientCommentCid, f)).map List.length).sum

/-- Function `setFeePercent`: gated by `MODERATOR_ROLE` (the `onlyRole` modifier runs
first), then `require(_feePercent >= 1 && _feePercent <= 20)`. -/
def setFeePercent (s : State) (caller feePercent : Nat) : Except ContractError State :=
  if s.moderators caller = true then
    if 1 ≤ feePercent ∧ feePercent ≤ 20 then .ok { s with feePercent := feePercent }
    else .error .feePercentOutOfRange
  else .error .unauthorized

/-- The post-state of a `setFeePercent` call: a revert leaves the state
unchanged. -/
def setFeePercentRun (s : State) (caller feePercent : Nat) : State :=
  match setFeePercent s caller feePercent with
  | .ok next => next
  | .error _ => s

/-- A full result window absorbs any further input. -/
theorem pushWindow_full {α : Type} (offset maxResults : Nat) (l : List α)
    (currentIndex : Nat) (result : List α) (h : maxResults ≤ result.length) :
    pushWindow offset maxResults l (currentIndex, result) = (currentIndex, result) := by
  cases l with
  | nil => rfl
  | cons t ts => simp [pushWindow, Nat.not_lt.2 h]

/-- The inner loop over a concatenation is the composition of the loops. -/
theorem pushWindow_append {α : Type} (offset maxResults : Nat) (l₁ l₂ : List α)
    (st : Nat × List α) :
    pushWindow offset maxResults (l₁ ++ l₂) st =
      pushWindow offset maxResults l₂ (pushWindow offset maxResults l₁ st) := by
  induction l₁ generalizing st with
  | nil => rfl
  | cons t ts ih =>
    obtain ⟨currentIndex, result⟩ := st
    by_cases hfull : result.length < maxResults
    · by_cases hoff : offset ≤ currentIndex
      · simp only [List.cons_append, pushWindow, if_pos hfull, if_pos hoff]
        exact ih _
      · simp only [List.cons_append, pushWindow, if_pos hfull, if_neg hoff]
        exact ih _
    · simp only [List.cons_append, pushWindow, if_neg hfull]
      rw [pushWindow_full _ _ _ _ _ (Nat.le_of_not_lt hfull)]

/-- The nested loops of the pagination functions behave like the single loop
over the concatenation of the per-fee-recipient lists. -/
theorem collectWindow_eq {α : Type} (offset maxResults : Nat)
    (lists : List (List α)) (st : Nat × List α) :
    collectWindow offset maxResults lists st =
      pushWindow offset maxResults lists.flatten st := by
  induction lists generalizing st with
  | nil => rfl
  | cons l ls ih =>
    obtain ⟨currentIndex, result⟩ := st
    by_cases hfull : result.length < maxResults
    · simp only [collectWindow, if_pos hfull, List.flatten_cons, pushWindow_append]
      exact ih _
    · simp only [collectWindow, if_neg hfull, List.flatten_cons, pushWindow_append]
      rw [pushWindow_full _ _ _ _ _ (Nat.le_of_not_lt hfull),
        pushWindow_full _ _ _ _ _ (Nat.le_of_not_lt hfull)]

/-- What the copying loop computes: the window of `maxResults - result.length`
elements of `l` starting `offset - currentIndex` in. -/
theorem pushWindow_snd {α : Type} (offset maxResults : Nat) (l : List α)
    (currentIndex : Nat) (result : List α) :
    (pushWindow offset maxResults l (currentIndex, result)).2 =
      result ++ (l.drop (offset - currentIndex)).take (maxResults - result.length) := by
  induction l generalizing currentIndex result with
  | nil => simp [pushWindow]
  | cons t ts ih =>
    by_cases hfull : result.length < maxResults
    · simp only [pushWindow, if_pos hfull]
      by_cases hoff : offset ≤ currentIndex
      · rw [if_pos hoff, ih]
        have h0 : offset - currentIndex = 0 := Nat.sub_eq_zero_of_le hoff
        have h1 : offset - (currentIndex + 1) = 0 := Nat.sub_eq_zero_of_le (by omega)
        have hk : maxResults - result.length = (maxResults - (result.length + 1)) + 1 := by
          omega
        rw [h0, h1, List.drop_zero, List.drop_zero, hk, List.take_succ_cons]
        simp
      · rw [if_neg hoff, ih]
        have h2 : offset - currentIndex = (offset - (currentIndex + 1)) + 1 := by omega
        rw [h2, List.drop_succ_cons]
    · simp only [pushWindow, if_neg hfull]
      rw [Nat.sub_eq_zero_of_le (Nat.le_of_not_lt hfull)]
      simp

/-- A checked accumulation that stays below `2^256` returns the plain sum. -/
theorem checkedSum_ok (l : List Nat) (acc : Nat) (h : acc + l.sum < U256) :
    checkedSum l acc = .ok (acc + l.sum) := by
  induction l generalizing acc with
  | nil => simp [checkedSum]
  | cons x xs ih =>
    have hx : ¬ U256 ≤ acc + x := by
      simp only [List.sum_cons] at h
      omega
    rw [checkedSum, if_neg hx, ih]
    · congr 1
      simp only [List.sum_cons]
      omega
    · simp only [List.sum_cons] at h
      omega

/-- The only error a checked accumulation can raise is the overflow panic. -/
theorem checkedSum_error (l : List Nat) (acc : Nat) (e : ContractError)
    (h : checkedSum l acc = .error e) : e = .arithmeticOverflow := by
  induction l generalizing acc with
  | nil => exact Except.noConfusion h
  | cons x xs ih =>
    rw [checkedSum] at h
    by_cases hx : U256 ≤ acc + x
    · rw [if_pos hx] at h
      injection h with h
      exact h.symm
    · rw [if_neg hx] at h
      exact ih _ h

/-- The pagination body: when the `totalTips` accumulation fits `uint256`,
it returns the empty slice for an offset at or past the end; it returns
exactly the slice `[offset, offset + limit)` of the concatenation whenever
the `offset + limit` addition also fits; and it raises the overflow panic
when `offset` is in range but `offset + limit` overflows. -/
theorem paginate_spec {α : Type} (lists : List (List α)) (offset limit : Nat)
    (htot : (lists.map List.length).sum < U256) :
    ((lists.map List.length).sum ≤ offset → paginate lists offset limit = .ok []) ∧
    (offset + limit < U256 →
      paginate lists offset limit = .ok ((lists.flatten.drop offset).take limit)) ∧
    (offset < (lists.map List.length).sum → U256 ≤ offset + limit →
      paginate lists offset limit = .error .arithmeticOverflow) := by
  have hsum : checkedSum (lists.map List.length) 0 = .ok ((lists.map List.length).sum) := by
    have h0 := checkedSum_ok (lists.map List.length) 0 (by omega)
    rwa [Nat.zero_add] at h0
  unfold paginate
  simp only [hsum]
  have hlen : (lists.map List.length).sum = lists.flatten.length :=
    (List.length_flatten lists).symm
  refine ⟨fun hoff => ?_, fun hol => ?_, fun hlt hole => ?_⟩
  · rw [if_pos hoff]
  · by_cases hoff : (lists.map List.length).sum ≤ offset
    · rw [if_pos hoff, List.drop_eq_nil_of_le (hlen ▸ hoff), List.take_nil]
    · rw [if_neg hoff, if_neg (Nat.not_le.2 hol), collectWindow_eq, pushWindow_snd]
      simp only [List.nil_append, Nat.sub_zero, List.length_nil]
      have hdl : (lists.flatten.drop offset).length =
          (lists.map List.length).sum - offset := by
        rw [List.length_drop, hlen]
      by_cases h2 : (lists.map List.length).sum < offset + limit
      · rw [if_pos h2, List.take_of_length_le (le_of_eq hdl),
          List.take_of_length_le (by rw [hdl]; omega)]
      · rw [if_neg h2]
  · rw [if_neg (Nat.not_le.2 hlt), if_pos hole]

/-- Both pagination functions read the same per-key lists; mapping
`Tip.amount` over each list does not change the lengths, so the `totalTips`
count is the same for `getTips` and `getTipsAmounts`. -/
theorem amounts_flatten_length (s : State) (recipientCommentCid : Nat)
    (feeRecipients : List Nat) :
    (feeRecipients.map fun f =>
      (s.tips (recipientCommentCid, f)).map Tip.amount).flatten.length =
      totalTipsCount s recipientCommentCid feeRecipients := by
  rw [List.length_flatten]
  unfold totalTipsCount
  simp only [List.map_map]
  have hcomp : (List.length ∘ fun f => (s.tips (recipientCommentCid, f)).map Tip.amount) =
      (List.length ∘ fun f => s.tips (recipientCommentCid, f)) := by
    funext f
    simp [Function.comp, List.length_map]
  rw [hcomp]

/-- The flattened length of the `getTips` lists is the `totalTips` count. -/
theorem tips_flatten_length (s : State) (recipientCommentCid : Nat)
    (feeRecipients : List Nat) :
    (feeRecipients.map fun f => s.tips (recipientCommentCid, f)).flatten.length =
      totalTipsCount s recipientCommentCid feeRecipients :=
  List.length_flatten _

/-- Shared helper: the three-way behaviour of `getTips` (empty slice past the
end, the exact slice when `offset + limit` fits `uint256`, the overflow panic
otherwise), assuming the `totalTips` accumulation fits `uint256`. -/
theorem getTips_spec (s : State) (recipientCommentCid : Nat)
    (feeRecipients : List Nat) (offset limit : Nat)
    (htot : totalTipsCount s recipientCommentCid feeRecipients < U256) :
    (totalTipsCount s recipientCommentCid feeRecipients ≤ offset →
      getTips s recipientCommentCid feeRecipients offset limit = .ok []) ∧
    (offset + limit < U256 →
      getTips s recipientCommentCid feeRecipients offset limit =
        .ok (((feeRecipients.map fun f =>
          s.tips (recipientCommentCid, f)).flatten.drop offset).take limit)) ∧
    (offset < totalTipsCount s recipientCommentCid feeRecipients →
      U256 ≤ offset + limit →
      getTips s recipientCommentCid feeRecipients offset limit =
        .error .arithmeticOverflow) :=
  paginate_spec (feeRecipients.map fun f => s.tips (recipientCommentCid, f))
    offset limit htot

/-- Shared helper: the same three-way behaviour for `getTipsAmounts`. -/
theorem getTipsAmounts_spec (s : State) (recipientCommentCid : Nat)
    (feeRecipients : List Nat) (offset limit : Nat)
    (htot : totalTipsCount s recipientCommentCid feeRecipients < U256) :
    (totalTipsCount s recipientCommentCid feeRecipients ≤ offset →
      getTipsAmounts s recipientCommentCid feeRecipients offset limit = .ok []) ∧
    (offset + limit < U256 →
      getTipsAmounts s recipientCommentCid feeRecipients offset limit =
        .ok (((feeRecipients.map fun f =>
          (s.tips (recipientCommentCid, f)).map Tip.amount).flatten.drop offset).take
            limit)) ∧
    (offset < totalTipsCount s recipientCommentCid feeRecipients →
      U256 ≤ offset + limit →
      getTipsAmounts s recipientCommentCid feeRecipients offset limit =
        .error .arithmeticOverflow) := by
  have hEq : ((feeRecipients.map fun f =>
      (s.tips (recipientCommentCid, f)).map Tip.amount).map List.length).sum =
      totalTipsCount s recipientCommentCid feeRecipients := by
    rw [← List.length_flatten, amounts_flatten_length]
  have h := paginate_spec
    (feeRecipients.map fun f => (s.tips (recipientCommentCid, f)).map Tip.amount)
    offset limit (by rw [hEq]; exact htot)
  exact ⟨fun hoff => h.1 (by rw [hEq]; exact hoff), h.2.1,
    fun hlt hole => h.2.2 (by rw [hEq]; exact hlt) hole⟩

/-- C10: the constructor performs no range validation on `_feePercent`: for
every argument value (including `0` and values above `20`) construction
succeeds, `feePercent` is set to that value, `minimumTipAmount` to its
argument, and the deployer gets the admin role. -/
theorem constructor_no_validation (deployer minTip feePct : Nat) :
    (initState deployer minTip feePct).feePercent = feePct ∧
    (initState deployer minTip feePct).minimumTipAmount = minTip ∧
    (initState deployer minTip feePct).admins deployer = true := by
  refine ⟨rfl, rfl, ?_⟩
  simp [initState]

/-- C3: `tip` checks its preconditions in order — value below
`minimumTipAmount` reverts with `AmountTooLow` first, then a value different
from `amount` reverts with `AmountMismatch` — and in either case the whole
state is unchanged. -/
theorem tip_validation_order (s : State) (c : TipCall) :
    (c.msgValue < s.minimumTipAmount →
      tipStep s c = .error .amountTooLow ∧ tipRun s c = s) ∧
    (s.minimumTipAmount ≤ c.msgValue → c.msgValue ≠ c.amount →
      tipStep s c = .error .amountMismatch ∧ tipRun s c = s) := by
  constructor
  · intro h
    have hstep : tipStep s c = .error .amountTooLow := by
      unfold tipStep
      rw [if_pos h]
    refine ⟨hstep, ?_⟩
    unfold tipRun
    rw [hstep]
  · intro h1 h2
    have hstep : tipStep s c = .error .amountMismatch := by
      unfold tipStep
      rw [if_neg (Nat.not_lt.2 h1), if_pos h2]
    refine ⟨hstep, ?_⟩
    unfold tipRun
    rw [hstep]

/-- A state with a minimum tip of `10` wei, used to exercise the validation
order. -/
def w3s : State := initState 9 10 5

/-- A call attaching `5` wei (below the minimum) and declaring `7`. -/
def w3c1 : TipCall := ⟨1, 5, 2, 7, 3, 0, 4, true, true⟩

/-- A call attaching `10` wei (at the minimum) but declaring `7`. -/
def w3c2 : TipCall := ⟨1, 10, 2, 7, 3, 0, 4, true, true⟩

/-- Witness for C3: both failure branches at concrete inputs. -/
theorem tip_validation_order_witness :
    tipStep w3s w3c1 = .error .amountTooLow ∧ tipRun w3s w3c1 = w3s ∧
    tipStep w3s w3c2 = .error .amountMismatch ∧ tipRun w3s w3c2 = w3s := by
  have h1 := (tip_validation_order w3s w3c1).1 (by decide)
  have h2 := (tip_validation_order w3s w3c2).2 (by decide) (by decide)
  exact ⟨h1.1, h1.2, h2.1, h2.2⟩

/-- C2: a successful `tip` transfers exactly
`fee = floor(amount * feePercent / 100)` to the fee recipient, then
`amount - fee` to the recipient, and the two add back to `amount` with no
rounding loss. -/
theorem tip_fee_split (s : State) (c : TipCall) (next : State)
    (h : tipStep s c = .ok next) :
    next.transfers = s.transfers ++
      [(c.feeRecipient, c.amount * s.feePercent / 100),
       (c.recipient, c.amount - c.amount * s.feePercent / 100)] ∧
    c.amount * s.feePercent / 100 + (c.amount - c.amount * s.feePercent / 100) =
      c.amount := by
  obtain ⟨-, -, -, hfee, -, -, hnext⟩ := tipStep_ok_inv s c next h
  subst hnext
  exact ⟨rfl, Nat.add_sub_cancel' hfee⟩

/-- A state with fee percent `5` and a call tipping `100` wei. -/
def w2s : State := initState 9 0 5

/-- The concrete `tip` call for the C2 witness. -/
def w2c : TipCall := ⟨1, 100, 2, 100, 3, 0, 4, true, true⟩

/-- Witness for C2: tipping `100` wei at `5`% produces transfers of `5` and
`95`. -/
theorem tip_fee_split_witness :
    (tipRun w2s w2c).transfers = w2s.transfers ++ [(3, 5), (2, 95)] ∧
    5 + 95 = (100 : Nat) := by
  have h := tip_fee_split w2s w2c (tipRun w2s w2c) rfl
  exact ⟨h.1, h.2⟩

/-- C9 (amended): when the summed totals stay below `2^256`,
`getTipsTotalAmount` returns the sum, in list order and without
deduplication, of `tipsTotalAmounts` over the derived keys; a fee recipient
listed twice contributes its total twice (when the doubled total still fits).
When the checked accumulation reaches `2^256` the call reverts with the
overflow panic instead: see the counterexample. -/
theorem getTipsTotalAmount_sum_spec (s : State) (recipientCommentCid : Nat)
    (feeRecipients : List Nat)
    (h : (feeRecipients.map fun f => s.tipsTotalAmounts (recipientCommentCid, f)).sum <
      U256) :
    getTipsTotalAmount s recipientCommentCid feeRecipients =
      .ok ((feeRecipients.map fun f => s.tipsTotalAmounts (recipientCommentCid, f)).sum) ∧
    ∀ f : Nat,
      s.tipsTotalAmounts (recipientCommentCid, f) +
        s.tipsTotalAmounts (recipientCommentCid, f) < U256 →
      getTipsTotalAmount s recipientCommentCid [f, f] =
        .ok (2 * s.tipsTotalAmounts (recipientCommentCid, f)) := by
  constructor
  · unfold getTipsTotalAmount
    have h0 := checkedSum_ok
      (feeRecipients.map fun f => s.tipsTotalAmounts (recipientCommentCid, f)) 0
      (by omega)
    rwa [Nat.zero_add] at h0
  · intro f hf
    unfold getTipsTotalAmount
    have hs : (([f, f].map fun x => s.tipsTotalAmounts (recipientCommentCid, x)).sum) =
        2 * s.tipsTotalAmounts (recipientCommentCid, f) := by
      simp [two_mul]
    have h0 := checkedSum_ok
      ([f, f].map fun x => s.tipsTotalAmounts (recipientCommentCid, x)) 0
      (by rw [Nat.zero_add, hs]; omega)
    rwa [Nat.zero_add, hs] at h0

/-- A tip of `2^255` wei at fee percent `1`: every check passes and the key
`(4, 3)` accumulates a total of `2^255`. -/
def c9tip : TipCall := ⟨1, 2 ^ 255, 2, 2 ^ 255, 3, 0, 4, true, true⟩

/-- The state reached from a fresh contract (minimum `0`, fee `1`%) by the
single successful `2^255`-wei tip. -/
def c9state : State := tipRun (initState 9 0 1) c9tip

/-- Counterexample to C9 as stated: `c9state` is reached by one successful
tip and holds `tipsTotalAmounts[(4, 3)] = 2^255`; the duplicated-recipient
query `[3, 3]` — the very case the claim highlights — does not return the
doubled sum `2^256` but reverts with the checked-addition overflow panic. -/
theorem getTipsTotalAmount_sum_cex :
    execTips (initState 9 0 1) [c9tip] = some c9state ∧
    c9state.tipsTotalAmounts (4, 3) = 2 ^ 255 ∧
    getTipsTotalAmount c9state 4 [3, 3] = .error .arithmeticOverflow := by
  refine ⟨rfl, by decide, rfl⟩

/-- A state with a recipient total of `10` under key `(1, 3)`, for the C9
witness. -/
def w9s : State :=
  { initState 0 0 0 with
    tipsTotalAmounts := fun k => if k = (1, 3) then 10 else 0 }

/-- Witness for the amended C9: at a concrete state with total `10` under
key `(1, 3)`, the duplicated query returns `ok 20 = 2 * 10`. -/
theorem getTipsTotalAmount_sum_spec_witness :
    getTipsTotalAmount w9s 1 [3, 3] =
      .ok (([3, 3].map fun f => w9s.tipsTotalAmounts (1, f)).sum) ∧
    getTipsTotalAmount w9s 1 [3, 3] = .ok (2 * w9s.tipsTotalAmounts (1, 3)) := by
  have h := getTipsTotalAmount_sum_spec w9s 1 [3, 3] (by decide)
  exact ⟨h.1, h.2 3 (by decide)⟩

/-- C4 (amended): assuming the `totalTips` accumulation fits `uint256`,
`getTips` returns exactly the slice `[offset, offset + limit)` of the
concatenation of the per-fee-recipient tip lists (order of the given fee
recipients, insertion order inside each list) whenever `offset` is at or past
the end (early empty return) or the checked addition `offset + limit` stays
below `2^256`; when `offset` is in range and `offset + limit` reaches
`2^256`, the call instead reverts with the overflow panic: see the
counterexample. -/
theorem getTips_slice_spec (s : State) (recipientCommentCid : Nat)
    (feeRecipients : List Nat) (offset limit : Nat)
    (htot : totalTipsCount s recipientCommentCid feeRecipients < U256) :
    (totalTipsCount s recipientCommentCid feeRecipients ≤ offset →
      getTips s recipientCommentCid feeRecipients offset limit =
        .ok (((feeRecipients.map fun f =>
          s.tips (recipientCommentCid, f)).flatten.drop offset).take limit)) ∧
    (offset + limit < U256 →
      getTips s recipientCommentCid feeRecipients offset limit =
        .ok (((feeRecipients.map fun f =>
          s.tips (recipientCommentCid, f)).flatten.drop offset).take limit)) ∧
    (offset < totalTipsCount s recipientCommentCid feeRecipients →
      U256 ≤ offset + limit →
      getTips s recipientCommentCid feeRecipients offset limit =
        .error .arithmeticOverflow) := by
  have h := getTips_spec s recipientCommentCid feeRecipients offset limit htot
  refine ⟨fun hoff => ?_, h.2.1, h.2.2⟩
  rw [h.1 hoff, List.drop_eq_nil_of_le (by rw [tips_flatten_length]; exact hoff),
    List.take_nil]

/-- A state holding two tips under key `(1, 3)`, for the pagination
counterexamples and witnesses. -/
def w5s : State :=
  { initState 0 0 0 with
    tips := fun k => if k = (1, 3) then [⟨10, 3, 1, 0⟩, ⟨20, 3, 1, 0⟩] else [] }

/-- Counterexample to C4 as stated: with two stored tips, `offset = 1` and
`limit = 2^256 - 1`, the slice of the concatenation is the one-element tail,
but the call does not return it — the checked addition `offset + limit`
overflows `uint256` and the call reverts with the panic. -/
theorem getTips_slice_cex :
    (((([3] : List Nat).map fun f => w5s.tips (1, f)).flatten.drop 1).take (U256 - 1)) =
      [⟨20, 3, 1, 0⟩] ∧
    getTips w5s 1 [3] 1 (U256 - 1) = .error .arithmeticOverflow := by
  refine ⟨by decide, rfl⟩

/-- Witness for the amended C4: at the two-tip state, an in-range window
returns the slice, an offset past the end returns `ok []`, and an in-range
offset with an overflowing `offset + limit` reverts. -/
theorem getTips_slice_spec_witness :
    getTips w5s 1 [3] 1 1 =
      .ok (((([3] : List Nat).map fun f => w5s.tips (1, f)).flatten.drop 1).take 1) ∧
    getTips w5s 1 [3] 9 2 =
      .ok (((([3] : List Nat).map fun f => w5s.tips (1, f)).flatten.drop 9).take 2) ∧
    getTips w5s 1 [3] 1 U256 = .error .arithmeticOverflow := by
  refine ⟨(getTips_slice_spec w5s 1 [3] 1 1 (by decide)).2.1 (by decide),
    (getTips_slice_spec w5s 1 [3] 9 2 (by decide)).1 (by decide),
    (getTips_slice_spec w5s 1 [3] 1 U256 (by decide)).2.2 (by decide) (by decide)⟩

/-- C5 (amended): boundary behaviour of `getTips` and `getTipsAmounts`,
assuming the `totalTips` accumulation fits `uint256`: an offset at or past
the total concatenated length yields `ok []` (no error, before the
`offset + limit` addition is ever evaluated); an overlong window whose
checked `offset + limit` addition still fits `uint256` yields exactly
`totalLength - offset` elements; when `offset` is in range but
`offset + limit` reaches `2^256` the call reverts with the overflow panic
(contrary to the original "never an error": see the counterexample);
`limit = 0` yields `ok []`. -/
theorem getTips_boundary_spec (s : State) (recipientCommentCid : Nat)
    (feeRecipients : List Nat) (offset limit : Nat)
    (htot : totalTipsCount s recipientCommentCid feeRecipients < U256) :
    (totalTipsCount s recipientCommentCid feeRecipients ≤ offset →
      getTips s recipientCommentCid feeRecipients offset limit = .ok [] ∧
      getTipsAmounts s recipientCommentCid feeRecipients offset limit = .ok []) ∧
    (totalTipsCount s recipientCommentCid feeRecipients < offset + limit →
      offset + limit < U256 →
      (getTips s recipientCommentCid feeRecipients offset limit).map List.length =
        .ok (totalTipsCount s recipientCommentCid feeRecipients - offset) ∧
      (getTipsAmounts s recipientCommentCid feeRecipients offset limit).map List.length =
        .ok (totalTipsCount s recipientCommentCid feeRecipients - offset)) ∧
    (offset < totalTipsCount s recipientCommentCid feeRecipients →
      U256 ≤ offset + limit →
      getTips s recipientCommentCid feeRecipients offset limit =
        .error .arithmeticOverflow ∧
      getTipsAmounts s recipientCommentCid feeRecipients offset limit =
        .error .arithmeticOverflow) ∧
    (getTips s recipientCommentCid feeRecipients offset 0 = .ok [] ∧
      getTipsAmounts s recipientCommentCid feeRecipients offset 0 = .ok []) := by
  have ht := getTips_spec s recipientCommentCid feeRecipients offset limit htot
  have ha := getTipsAmounts_spec s recipientCommentCid feeRecipients offset limit htot
  have ht0 := getTips_spec s recipientCommentCid feeRecipients offset 0 htot
  have ha0 := getTipsAmounts_spec s recipientCommentCid feeRecipients offset 0 htot
  refine ⟨fun hoff => ⟨ht.1 hoff, ha.1 hoff⟩, fun hover hol => ⟨?_, ?_⟩,
    fun hlt hole => ⟨ht.2.2 hlt hole, ha.2.2 hlt hole⟩, ?_, ?_⟩
  · rw [ht.2.1 hol]
    simp only [Except.map]
    rw [List.length_take, List.length_drop, tips_flatten_length]
    exact congrArg Except.ok (by omega)
  · rw [ha.2.1 hol]
    simp only [Except.map]
    rw [List.length_take, List.length_drop, amounts_flatten_length]
    exact congrArg Except.ok (by omega)
  · by_cases hoff : totalTipsCount s recipientCommentCid feeRecipients ≤ offset
    · exact ht0.1 hoff
    · rw [ht0.2.1 (by omega), List.take_zero]
  · by_cases hoff : totalTipsCount s recipientCommentCid feeRecipients ≤ offset
    · exact ha0.1 hoff
    · rw [ha0.2.1 (by omega), List.take_zero]

/-- Counterexample to C5 as stated: with two stored tips, `offset = 1` and
`limit = 2^256 - 1`, the claim demands a one-element result
(`totalLength - offset = 1`) with no error, but `getTipsAmounts` reverts with
the checked-addition overflow panic. -/
theorem getTips_boundary_cex :
    totalTipsCount w5s 1 [3] - 1 = 1 ∧
    getTipsAmounts w5s 1 [3] 1 (U256 - 1) = .error .arithmeticOverflow := by
  refine ⟨by decide, rfl⟩

/-- Witness for the amended C5: with two stored tips, an offset past the end
yields `ok []`, an overlong (but non-overflowing) window yields the
one-element tail, an overflowing window reverts, and `limit = 0` yields
`ok []`. -/
theorem getTips_boundary_spec_witness :
    getTips w5s 1 [3] 9 9 = .ok [] ∧
    (getTips w5s 1 [3] 1 5).map List.length = .ok (totalTipsCount w5s 1 [3] - 1) ∧
    (getTipsAmounts w5s 1 [3] 1 5).map List.length = .ok (totalTipsCount w5s 1 [3] - 1) ∧
    getTipsAmounts w5s 1 [3] 1 U256 = .error .arithmeticOverflow ∧
    getTips w5s 1 [3] 0 0 = .ok [] := by
  have h1 := ((getTips_boundary_spec w5s 1 [3] 9 9 (by decide)).1 (by decide)).1
  have h2 := (getTips_boundary_spec w5s 1 [3] 1 5 (by decide)).2.1 (by decide) (by decide)
  have h3 := ((getTips_boundary_spec w5s 1 [3] 1 U256 (by decide)).2.2.1 (by decide)
    (by decide)).2
  have h4 := (getTips_boundary_spec w5s 1 [3] 0 0 (by decide)).2.2.2.1
  exact ⟨h1, h2.1, h2.2, h3, h4⟩

/-- The batched inner loops can fail only with the overflow panic, never
with `ArrayLengthMismatch` (that error is raised before the loops). -/
theorem getTipsTotalAmountsLoop_error (s : State) (recipientCommentCids : List Nat) :
    ∀ (feeRecipients : List (List Nat)) (e : ContractError),
    getTipsTotalAmountsLoop s recipientCommentCids feeRecipients = .error e →
    e = .arithmeticOverflow := by
  induction recipientCommentCids with
  | nil =>
    intro frss e h
    exact Except.noConfusion h
  | cons cid cids ih =>
    intro frss e h
    cases frss with
    | nil => exact Except.noConfusion h
    | cons frs frss =>
      rw [getTipsTotalAmountsLoop] at h
      cases hc : checkedSum (frs.map fun f => s.tipsTotalAmounts (cid, f)) 0 with
      | error e2 =>
        rw [hc] at h
        injection h with h
        subst h
        exact checkedSum_error _ _ _ hc
      | ok total =>
        rw [hc] at h
        cases hrec : getTipsTotalAmountsLoop s cids frss with
        | error e2 =>
          rw [hrec] at h
          injection h with h
          subst h
          exact ih frss _ hrec
        | ok totals =>
          rw [hrec] at h
          exact Except.noConfusion h

/-- When every per-index accumulation stays below `2^256`, the batched inner
loops succeed. -/
theorem getTipsTotalAmountsLoop_ok (s : State) (recipientCommentCids : List Nat) :
    ∀ feeRecipients : List (List Nat),
    (∀ p ∈ List.zip recipientCommentCids feeRecipients,
      ((p.2.map fun f => s.tipsTotalAmounts (p.1, f)).sum) < U256) →
    getTipsTotalAmountsLoop s recipientCommentCids feeRecipients =
      .ok ((List.zip recipientCommentCids feeRecipients).map
        fun p => (p.2.map fun f => s.tipsTotalAmounts (p.1, f)).sum) := by
  induction recipientCommentCids with
  | nil =>
    intro frss _
    cases frss <;> rfl
  | cons cid cids ih =>
    intro frss hsmall
    cases frss with
    | nil => rfl
    | cons frs frss =>
      rw [getTipsTotalAmountsLoop]
      have hhead : ((frs.map fun f => s.tipsTotalAmounts (cid, f)).sum) < U256 :=
        hsmall (cid, frs) (by simp [List.zip_cons_cons])
      have hc := checkedSum_ok (frs.map fun f => s.tipsTotalAmounts (cid, f)) 0
        (by omega)
      rw [Nat.zero_add] at hc
      rw [hc, ih frss (fun p hp => hsmall p (by simp [List.zip_cons_cons, hp]))]
      simp [List.zip_cons_cons]

/-- Inversion of a successful batch query: with equal outer lengths, the
result has an entry per outer index and each entry is the `ok` result of the
corresponding single-cid query. -/
theorem getTipsTotalAmountsLoop_ok_inv (s : State) (recipientCommentCids : List Nat) :
    ∀ (feeRecipients : List (List Nat)) (res : List Nat),
    recipientCommentCids.length = feeRecipients.length →
    getTipsTotalAmountsLoop s recipientCommentCids feeRecipients = .ok res →
    res.length = recipientCommentCids.length ∧
    ∀ (i : Nat) (h1 : i < recipientCommentCids.length)
      (h2 : i < feeRecipients.length) (h3 : i < res.length),
      getTipsTotalAmount s (recipientCommentCids.get ⟨i, h1⟩)
        (feeRecipients.get ⟨i, h2⟩) = .ok (res.get ⟨i, h3⟩) := by
  induction recipientCommentCids with
  | nil =>
    intro frss res _ h
    cases frss with
    | nil =>
      injection h with h
      subst h
      exact ⟨rfl, fun i h1 _ _ => absurd h1 (Nat.not_lt_zero i)⟩
    | cons frs frss =>
      injection h with h
      subst h
      exact ⟨rfl, fun i h1 _ _ => absurd h1 (Nat.not_lt_zero i)⟩
  | cons cid cids ih =>
    intro frss res hlen h
    cases frss with
    | nil => exact absurd hlen (by simp)
    | cons frs frss =>
      rw [getTipsTotalAmountsLoop] at h
      cases hc : checkedSum (frs.map fun f => s.tipsTotalAmounts (cid, f)) 0 with
      | error e2 =>
        rw [hc] at h
        exact Except.noConfusion h
      | ok total =>
        rw [hc] at h
        cases hrec : getTipsTotalAmountsLoop s cids frss with
        | error e2 =>
          rw [hrec] at h
          exact Except.noConfusion h
        | ok totals =>
          rw [hrec] at h
          injection h with h
          subst h
          have hlen2 : cids.length = frss.length := by
            simpa using hlen
          obtain ⟨hl, hi⟩ := ih frss totals hlen2 hrec
          refine ⟨by simp [hl], ?_⟩
          intro i h1 h2 h3
          cases i with
          | zero => exact hc
          | succ n =>
            have hn1 : n < cids.length := by simpa using h1
            have hn2 : n < frss.length := by simpa using h2
            have hn3 : n < totals.length := by simpa using h3
            simpa using hi n hn1 hn2 hn3

/-- C7 (amended): the batched `getTipsTotalAmounts` reverts with
`ArrayLengthMismatch` exactly when the outer arrays differ in length; with
equal lengths and every per-index accumulation below `2^256` it succeeds, and
whenever it returns a result array, `result[i]` is the `ok` value of
`getTipsTotalAmount(recipientCommentCids[i], feeRecipients[i])` for every
index.  With equal lengths but an overflowing accumulation, the call reverts
with the overflow panic instead of returning a result array: see the
counterexample. -/
theorem getTipsTotalAmounts_batch_spec (s : State) (recipientCommentCids : List Nat)
    (feeRecipients : List (List Nat)) :
    (getTipsTotalAmounts s recipientCommentCids feeRecipients =
        .error .arrayLengthMismatch ↔
      recipientCommentCids.length ≠ feeRecipients.length) ∧
    (recipientCommentCids.length = feeRecipients.length →
      (∀ p ∈ List.zip recipientCommentCids feeRecipients,
        ((p.2.map fun f => s.tipsTotalAmounts (p.1, f)).sum) < U256) →
      (getTipsTotalAmounts s recipientCommentCids feeRecipients).isOk = true) ∧
    ∀ res, getTipsTotalAmounts s recipientCommentCids feeRecipients = .ok res →
      res.length = recipientCommentCids.length ∧
      ∀ (i : Nat) (h1 : i < recipientCommentCids.length)
        (h2 : i < feeRecipients.length) (h3 : i < res.length),
        getTipsTotalAmount s (recipientCommentCids.get ⟨i, h1⟩)
          (feeRecipients.get ⟨i, h2⟩) = .ok (res.get ⟨i, h3⟩) := by
  unfold getTipsTotalAmounts
  by_cases h : recipientCommentCids.length ≠ feeRecipients.length
  · rw [if_pos h]
    refine ⟨⟨fun _ => h, fun _ => rfl⟩, fun heq => absurd heq h, ?_⟩
    intro res hres
    exact Except.noConfusion hres
  · rw [if_neg h]
    have heq : recipientCommentCids.length = feeRecipients.length :=
      Decidable.not_not.mp h
    refine ⟨⟨fun hco => ?_, fun hne => absurd heq hne⟩, fun _ hsmall => ?_, ?_⟩
    · exact ContractError.noConfusion
        (getTipsTotalAmountsLoop_error s recipientCommentCids feeRecipients _ hco)
    · rw [getTipsTotalAmountsLoop_ok s recipientCommentCids feeRecipients hsmall]
      rfl
    · intro res hres
      exact getTipsTotalAmountsLoop_ok_inv s recipientCommentCids feeRecipients res
        heq hres

/-- A state with nonzero recipient totals under the keys `(1, 3)` and
`(2, 3)`, for the batch-query witness. -/
def w7s : State :=
  { initState 0 0 0 with
    tipsTotalAmounts := fun k => if k = (1, 3) then 10 else if k = (2, 3) then 4 else 0 }

/-- Counterexample to C7 as stated: at the reachable state `c9state`
(recipient total `2^255` under key `(4, 3)`), the batch query with equal
outer lengths and inner list `[3, 3]` does not return a result array — the
checked accumulation `totals[0] += tipsTotalAmounts[tipKey]` overflows
`uint256` and the call reverts with the panic. -/
theorem getTipsTotalAmounts_batch_cex :
    ([4] : List Nat).length = ([[3, 3]] : List (List Nat)).length ∧
    getTipsTotalAmounts c9state [4] [[3, 3]] = .error .arithmeticOverflow := by
  refine ⟨rfl, rfl⟩

/-- Witness for the amended C7: a concrete batch query succeeds and its first
entry agrees with the single-cid query. -/
theorem getTipsTotalAmounts_batch_spec_witness :
    (getTipsTotalAmounts w7s [1, 2] [[3], [3, 3]]).isOk = true ∧
    getTipsTotalAmount w7s (([1, 2] : List Nat).get ⟨0, by decide⟩)
        (([[3], [3, 3]] : List (List Nat)).get ⟨0, by decide⟩) =
      .ok (([10, 8] : List Nat).get ⟨0, by decide⟩) := by
  have h := getTipsTotalAmounts_batch_spec w7s [1, 2] [[3], [3, 3]]
  have hok : getTipsTotalAmounts w7s [1, 2] [[3], [3, 3]] = .ok [10, 8] := by rfl
  exact ⟨h.2.1 (by decide) (by decide),
    (h.2.2 [10, 8] hok).2 0 (by decide) (by decide) (by decide)⟩

/-- C8: `setFeePercent`, called by a moderator, reverts with
`FeePercentOutOfRange` for every value outside `1..20` leaving `feePercent`
unchanged, and succeeds for every value in `1..20`, setting it. -/
theorem setFeePercent_range_spec (s : State) (caller v : Nat)
    (hmod : s.moderators caller = true) :
    (¬ (1 ≤ v ∧ v ≤ 20) →
      setFeePercent s caller v = .error .feePercentOutOfRange ∧
      setFeePercentRun s caller v = s) ∧
    ((1 ≤ v ∧ v ≤ 20) →
      setFeePercent s caller v = .ok { s with feePercent := v } ∧
      (setFeePercentRun s caller v).feePercent = v) := by
  constructor
  · intro hout
    have hstep : setFeePercent s caller v = .error .feePercentOutOfRange := by
      unfold setFeePercent
      rw [if_pos hmod, if_neg hout]
    refine ⟨hstep, ?_⟩
    unfold setFeePercentRun
    rw [hstep]
  · intro hin
    have hstep : setFeePercent s caller v = .ok { s with feePercent := v } := by
      unfold setFeePercent
      rw [if_pos hmod, if_pos hin]
    refine ⟨hstep, ?_⟩
    unfold setFeePercentRun
    rw [hstep]

/-- A state in which address `7` holds the moderator role. -/
def w8s : State := { initState 0 0 5 with moderators := fun a => a == 7 }

/-- Witness for C8: `0` and `21` revert, `1` and `20` succeed, at a concrete
moderator-held state. -/
theorem setFeePercent_range_spec_witness :
    setFeePercent w8s 7 0 = .error .feePercentOutOfRange ∧
    setFeePercent w8s 7 21 = .error .feePercentOutOfRange ∧
    (setFeePercentRun w8s 7 1).feePercent = 1 ∧
    (setFeePercentRun w8s 7 20).feePercent = 20 := by
  have h0 := (setFeePercent_range_spec w8s 7 0 rfl).1 (by decide)
  have h21 := (setFeePercent_range_spec w8s 7 21 rfl).1 (by decide)
  have h1 := (setFeePercent_range_spec w8s 7 1 rfl).2 (by decide)
  have h20 := (setFeePercent_range_spec w8s 7 20 rfl).2 (by decide)
  exact ⟨h0.1, h21.1, h1.2, h20.2⟩

/-- The recipient-total/tip-list agreement is preserved by every successful
`tip` whose amount fits in `uint96` (so that the stored, truncated amount
equals the amount added to the running total). -/
theorem execTips_preserves_inv (calls : List TipCall) :
    ∀ s0 s : State,
    (∀ key, s0.tipsTotalAmounts key = sumTipAmounts (s0.tips key)) →
    (∀ c ∈ calls, c.amount < U96) →
    execTips s0 calls = some s →
    ∀ key, s.tipsTotalAmounts key = sumTipAmounts (s.tips key) := by
  induction calls with
  | nil =>
    intro s0 s h0 _ hrun key
    unfold execTips at hrun
    injection hrun with hrun
    subst hrun
    exact h0 key
  | cons c cs ih =>
    intro s0 s h0 hsmall hrun key
    unfold execTips at hrun
    cases hstep : tipStep s0 c with
    | error e =>
      rw [hstep] at hrun
      exact Option.noConfusion hrun
    | ok s1 =>
      rw [hstep] at hrun
      refine ih s1 s ?_ (fun c2 hc2 => hsmall c2 (List.mem_cons_of_mem _ hc2)) hrun key
      obtain ⟨-, -, -, -, -, -, hnext⟩ := tipStep_ok_inv s0 c s1 hstep
      subst hnext
      intro key2
      by_cases hk : key2 = (c.recipientCommentCid, c.feeRecipient)
      · subst hk
        have hmod : c.amount % U96 = c.amount :=
          Nat.mod_eq_of_lt (hsmall c (List.mem_cons_self c cs))
        simp [sumTipAmounts, h0, hmod]
      · simp [hk, h0]

/-- C1 (amended): starting from a fresh contract, after any sequence of
successful `tip` calls in which every amount fits in `uint96`,
`tipsTotalAmounts[key]` equals the sum of the stored `Tip.amount` fields of
`tips[key]`, for every key.  (Without the `uint96` bound the code violates
the invariant: see the counterexample.) -/
theorem tipsTotal_sum_invariant_small_amounts (deployer minTip feePct : Nat)
    (calls : List TipCall) (s : State)
    (hsmall : ∀ c ∈ calls, c.amount < U96)
    (hrun : execTips (initState deployer minTip feePct) calls = some s) :
    ∀ key, s.tipsTotalAmounts key = sumTipAmounts (s.tips key) :=
  execTips_preserves_inv calls _ s (fun _ => rfl) hsmall hrun

/-- A tip of exactly `2^96` wei: the two value checks pass, but the stored
`uint96` amount truncates to `0` while the totals receive the full `2^96`. -/
def bigTipCall : TipCall := ⟨1, U96, 2, U96, 3, 0, 4, true, true⟩

/-- A small (in-range) tip of `100` wei. -/
def smallTipCall : TipCall := ⟨1, 100, 2, 100, 3, 0, 4, true, true⟩

/-- Counterexample to C1 as stated: after one successful `tip` of `2^96` wei
(minimum `0`, fee `5`%), the running total under key `(4, 3)` is `2^96` but
the sum of the stored `Tip.amount` fields is `0` — the invariant fails for
amounts at or above `2^96`. -/
theorem tipsTotal_sum_invariant_cex :
    execTips (initState 9 0 5) [bigTipCall] =
      some (tipRun (initState 9 0 5) bigTipCall) ∧
    (tipRun (initState 9 0 5) bigTipCall).tipsTotalAmounts (4, 3) = U96 ∧
    sumTipAmounts ((tipRun (initState 9 0 5) bigTipCall).tips (4, 3)) = 0 ∧
    (tipRun (initState 9 0 5) bigTipCall).tipsTotalAmounts (4, 3) ≠
      sumTipAmounts ((tipRun (initState 9 0 5) bigTipCall).tips (4, 3)) := by
  refine ⟨rfl, by decide, by decide, by decide⟩

/-- Witness for the amended C1: one successful `100`-wei tip keeps the total
equal to the stored sum at key `(4, 3)`. -/
theorem tipsTotal_sum_invariant_small_amounts_witness :
    (tipRun (initState 9 0 5) smallTipCall).tipsTotalAmounts (4, 3) =
      sumTipAmounts ((tipRun (initState 9 0 5) smallTipCall).tips (4, 3)) :=
  tipsTotal_sum_invariant_small_amounts 9 0 5 [smallTipCall]
    (tipRun (initState 9 0 5) smallTipCall) (by decide) rfl (4, 3)

/-- C6 (amended): every `tip` call that passes the two value checks, whose
fee computation does not overflow (`amount * feePercent < 2^256` and
`fee ≤ amount` — otherwise the call reverts before the transfers are
reached), whose two transfers both succeed, and whose two running-total
increments stay below `2^256`, succeeds — even for `amount ≥ 2^96`, with no
range check — appending a `Tip` whose stored amount is `amount % 2^96` while
both totals are incremented by the full untruncated amount.  (Passing the
value checks and the transfers alone is not enough: the increments can still
overflow and revert the call, see the counterexample.) -/
theorem tip_truncation_spec (s : State) (c : TipCall)
    (h1 : s.minimumTipAmount ≤ c.msgValue) (h2 : c.msgValue = c.amount)
    (h3 : c.amount * s.feePercent < U256)
    (h4 : c.amount * s.feePercent / 100 ≤ c.amount)
    (htf : c.feeTransferOk = true) (hrt : c.recipientTransferOk = true)
    (h5 : s.tipsTotalAmounts (c.recipientCommentCid, c.feeRecipient) + c.amount < U256)
    (h6 : s.senderTipsTotalAmounts
      (c.senderCommentCid, c.sender, c.recipientCommentCid, c.feeRecipient) +
        c.amount < U256) :
    (tipStep s c).isOk = true ∧
    (tipRun s c).tips (c.recipientCommentCid, c.feeRecipient) =
      s.tips (c.recipientCommentCid, c.feeRecipient) ++
        [⟨c.amount % U96, c.feeRecipient, c.sender, c.senderCommentCid⟩] ∧
    (tipRun s c).tipsTotalAmounts (c.recipientCommentCid, c.feeRecipient) =
      s.tipsTotalAmounts (c.recipientCommentCid, c.feeRecipient) + c.amount ∧
    (tipRun s c).senderTipsTotalAmounts
        (c.senderCommentCid, c.sender, c.recipientCommentCid, c.feeRecipient) =
      s.senderTipsTotalAmounts
        (c.senderCommentCid, c.sender, c.recipientCommentCid, c.feeRecipient) +
        c.amount := by
  have hstep : tipStep s c = .ok { s with
      transfers := s.transfers ++
        [(c.feeRecipient, c.amount * s.feePercent / 100),
         (c.recipient, c.amount - c.amount * s.feePercent / 100)]
      tips := fun k =>
        if k = (c.recipientCommentCid, c.feeRecipient) then
          s.tips k ++ [⟨c.amount % U96, c.feeRecipient, c.sender, c.senderCommentCid⟩]
        else s.tips k
      tipsTotalAmounts := fun k =>
        if k = (c.recipientCommentCid, c.feeRecipient) then
          s.tipsTotalAmounts k + c.amount
        else s.tipsTotalAmounts k
      senderTipsTotalAmounts := fun k =>
        if k = (c.senderCommentCid, c.sender, c.recipientCommentCid, c.feeRecipient) then
          s.senderTipsTotalAmounts k + c.amount
        else s.senderTipsTotalAmounts k } := by
    unfold tipStep
    rw [if_neg (Nat.not_lt.2 h1), if_neg (not_not_intro h2), if_neg (Nat.not_le.2 h3),
      if_neg (Nat.not_lt.2 h4), if_pos htf, if_pos hrt, if_neg (Nat.not_le.2 h5),
      if_neg (Nat.not_le.2 h6)]
  have hrun : tipRun s c = { s with
      transfers := s.transfers ++
        [(c.feeRecipient, c.amount * s.feePercent / 100),
         (c.recipient, c.amount - c.amount * s.feePercent / 100)]
      tips := fun k =>
        if k = (c.recipientCommentCid, c.feeRecipient) then
          s.tips k ++ [⟨c.amount % U96, c.feeRecipient, c.sender, c.senderCommentCid⟩]
        else s.tips k
      tipsTotalAmounts := fun k =>
        if k = (c.recipientCommentCid, c.feeRecipient) then
          s.tipsTotalAmounts k + c.amount
        else s.tipsTotalAmounts k
      senderTipsTotalAmounts := fun k =>
        if k = (c.senderCommentCid, c.sender, c.recipientCommentCid, c.feeRecipient) then
          s.senderTipsTotalAmounts k + c.amount
        else s.senderTipsTotalAmounts k } := by
    unfold tipRun
    rw [hstep]
  refine ⟨by rw [hstep]; rfl, ?_, ?_, ?_⟩ <;> rw [hrun] <;> simp

/-- Witness for the amended C6: tipping exactly `2^96` wei from a fresh state
(minimum `0`, fee `5`%) succeeds, stores a truncated amount `2^96 % 2^96 = 0`
and adds the full `2^96` to both totals. -/
theorem tip_truncation_spec_witness :
    (tipStep (initState 9 0 5) bigTipCall).isOk = true ∧
    (tipRun (initState 9 0 5) bigTipCall).tips (4, 3) =
      (initState 9 0 5).tips (4, 3) ++ [⟨U96 % U96, 3, 1, 0⟩] ∧
    (tipRun (initState 9 0 5) bigTipCall).tipsTotalAmounts (4, 3) =
      (initState 9 0 5).tipsTotalAmounts (4, 3) + U96 ∧
    (tipRun (initState 9 0 5) bigTipCall).senderTipsTotalAmounts (0, 1, 4, 3) =
      (initState 9 0 5).senderTipsTotalAmounts (0, 1, 4, 3) + U96 :=
  tip_truncation_spec (initState 9 0 5) bigTipCall (by decide) rfl (by decide)
    (by decide) rfl rfl (by decide) (by decide)

/-- A tip of `2^255` wei with both transfers succeeding. -/
def c6a : TipCall := ⟨1, 2 ^ 255, 2, 2 ^ 255, 3, 0, 4, true, true⟩

/-- A tip of `2^255 - 1` wei with both transfers succeeding. -/
def c6b : TipCall := ⟨1, 2 ^ 255 - 1, 2, 2 ^ 255 - 1, 3, 0, 4, true, true⟩

/-- A tip of `2^96` wei with both transfers succeeding. -/
def c6c : TipCall := ⟨1, U96, 2, U96, 3, 0, 4, true, true⟩

/-- The state reached from a fresh contract (minimum `0`, fee `0`%) by two
successful tips totalling `2^256 - 1` wei under key `(4, 3)`. -/
def c6state : State := tipRun (tipRun (initState 9 0 0) c6a) c6b

/-- Counterexample to C6 as stated: at the reachable state `c6state`
(recipient total `2^256 - 1`), the `2^96`-wei call `c6c` passes both value
checks, its fee arithmetic is exact (so both transfer statements are
reached), and both transfers succeed — yet the call does not succeed:
the checked increment `tipsTotalAmounts[tipKey] += amount`, which runs after
the transfers, overflows `uint256` and reverts the call. -/
theorem tip_truncation_cex :
    execTips (initState 9 0 0) [c6a, c6b] = some c6state ∧
    c6state.minimumTipAmount ≤ c6c.msgValue ∧
    c6c.msgValue = c6c.amount ∧
    c6c.amount * c6state.feePercent < U256 ∧
    c6c.amount * c6state.feePercent / 100 ≤ c6c.amount ∧
    c6c.feeTransferOk = true ∧
    c6c.recipientTransferOk = true ∧
    U96 ≤ c6c.amount ∧
    c6state.tipsTotalAmounts (4, 3) = U256 - 1 ∧
    tipStep c6state c6c = .error .arithmeticOverflow := by
  refine ⟨rfl, by decide, rfl, by decide, by decide, rfl, rfl, by decide, by decide, rfl⟩
